import Mathlib

/-!
Shallow embedding of the credential-acquisition subsystem of the
`google-cloud` crate (`src/google-cloud/src/authorize/mod.rs` and
`src/google-cloud/src/storage/client.rs`).

Modelling conventions:
* Clock readings (`chrono::Utc::now()`) are passed in explicitly as `Int`
  values measured in seconds (matching `DateTime::timestamp()`); the
  45-minute window `chrono::Duration::minutes(45)` is `45 * 60` seconds.
  `MetadataManager::token` reads the clock twice (once at the start of the
  call and once when the refreshed token is constructed), so its embedding
  takes two readings `t1` and `t2`.
* The HTTP transport is passed in as a function from the built request to
  either a transport-level failure or a response; response bodies are
  modelled at the information level as `Option Json` (`none` meaning bytes
  that do not parse as JSON at all).
* The JWT signer (`jwt::encode`) is passed in as a function from header,
  key and payload to either a signing failure or the signed assertion.
* Each embedded `token()` call returns, alongside the Rust function's
  result and the updated manager state, the list of HTTP requests it
  issued, so that "no network exchange" / "exactly one exchange" are
  directly statable.
-/

namespace GoogleCloudRs

/-- A minimal JSON value universe, sufficient for the bodies exchanged by
the authorization subsystem. -/
inductive Json where
  | null : Json
  | bool : Bool → Json
  | int : Int → Json
  | str : String → Json
  | arr : List Json → Json
  | obj : List (String × Json) → Json
deriving Repr

/-- Field lookup on a JSON value: `none` unless the value is an object
containing the key. -/
def Json.find : Json → String → Option Json
  | .obj fields, key => fields.lookup key
  | _, _ => none

/-- Embeds the `AuthResponse` struct: `access_token: String`,
`expires_in: i64` with `#[serde(default)]`. -/
structure AuthResponse where
  access_token : String
  expires_in : Int
deriving Repr, DecidableEq

/-- Serde-style decoding of `AuthResponse` from a JSON value:
`access_token` must be present as a string; `expires_in` defaults to `0`
when absent and must be an integer when present. -/
def AuthResponse.fromJson (j : Json) : Option AuthResponse :=
  match j.find "access_token" with
  | some (Json.str tok) =>
    match j.find "expires_in" with
    | some (Json.int n) => some { access_token := tok, expires_in := n }
    | some _ => none
    | none => some { access_token := tok, expires_in := 0 }
  | _ => none

/-- Embeds `enum TokenValue { Bearer(String) }`. -/
inductive TokenValue where
  | bearer : String → TokenValue
deriving Repr, DecidableEq

/-- Embeds the `Display` impl: `write!(f, "Bearer {}", token)`. -/
def TokenValue.toString : TokenValue → String
  | .bearer tok => "Bearer " ++ tok

/-- Embeds `struct Token { value: TokenValue, expiry: DateTime<Utc> }`. -/
structure Token where
  value : TokenValue
  expiry : Int
deriving Repr, DecidableEq

/-- Modelled from the spec: `AuthError` is defined in `src/error.rs`,
which is not part of the provided sources. Spec section 7 gives the error
taxonomy: configuration, transport, malformed response, signing failure. -/
inductive AuthError where
  | config : String → AuthError
  | transport : AuthError
  | malformedResponse : AuthError
  | signing : AuthError
deriving Repr, DecidableEq

/-- An HTTP request as built by `hyper::Request::builder()`. -/
structure HttpRequest where
  method : String
  uri : String
  headers : List (String × String)
  body : String
deriving Repr, DecidableEq

/-- An HTTP response: the status line and the body, the latter modelled at
the information level as `Option Json` (`none` = bytes that are not valid
JSON). -/
structure HttpResponse where
  status : Nat
  bodyJson : Option Json
deriving Repr

/-- The HTTP transport (`hyper::Client::request` followed by
`hyper::body::to_bytes`): either a transport failure or a response. -/
abbrev Net := HttpRequest → Except AuthError HttpResponse

/-- The JWT signer (`jwt::encode(header, key, payload, RS256)`): either a
signing failure or the signed assertion string. -/
abbrev Signer := Json → String → Json → Except AuthError String

/-- Embeds `const AUTH_ENDPOINT`. -/
def AUTH_ENDPOINT : String := "https://oauth2.googleapis.com/token"

/-- Embeds `const META_ENDPOINT`. -/
def META_ENDPOINT : String :=
  "http://metadata.google.internal/computeMetadata/v1/instance/service-accounts/default/token"

/-- What one embedded `token()` call produces: the Rust return value, the
manager state after the call, and the HTTP requests issued during it. -/
structure CallResult (σ : Type) where
  result : Except AuthError String
  state : σ
  requests : List HttpRequest
deriving Repr

/-- Embeds `struct ApplicationCredentials`. -/
structure ApplicationCredentials where
  cred_type : String
  project_id : String
  private_key_id : String
  private_key : String
  client_email : String
  client_id : String
  auth_uri : String
  token_uri : String
  auth_provider_x509_cert_url : String
  client_x509_cert_url : String
deriving Repr, DecidableEq

/-- Embeds `struct MetadataManager` (the `hyper` client handle carries no
observable state and is omitted). -/
structure MetadataManager where
  scopes : String
  current_token : Option Token
deriving Repr, DecidableEq

/-- Embeds `MetadataManager::new`: joins the scope list with spaces and
starts with no cached token. -/
def MetadataManager.new (scopes : List String) : MetadataManager :=
  { scopes := String.intercalate " " scopes, current_token := none }

/-- The request built on every metadata-strategy cache miss: a GET to the
fixed metadata endpoint with the `Metadata-Flavor: Google` header and an
empty body. -/
def metadataRequest : HttpRequest :=
  { method := "GET"
    uri := META_ENDPOINT
    headers := [("Metadata-Flavor", "Google")]
    body := "" }

/-- The cache-miss path of `MetadataManager::token` (lines 88-106): issue
the metadata request, parse the body as `AuthResponse`, and on success
store a token whose expiry is the second clock reading `t2`
(`chrono::Utc::now()` evaluated at line 101, after the exchange) plus the
server-reported `expires_in`. -/
def MetadataManager.refresh (m : MetadataManager) (t2 : Int) (net : Net) :
    CallResult MetadataManager :=
  match net metadataRequest with
  | .error e => { result := .error e, state := m, requests := [metadataRequest] }
  | .ok resp =>
    match resp.bodyJson.bind AuthResponse.fromJson with
    | none =>
      { result := .error .malformedResponse, state := m, requests := [metadataRequest] }
    | some ar =>
      let token : Token :=
        { value := .bearer ar.access_token, expiry := t2 + ar.expires_in }
      { result := .ok token.value.toString
        state := { m with current_token := some token }
        requests := [metadataRequest] }

/-- Embeds `MetadataManager::token`: `t1` is the first clock reading
(`current_time`, line 81), `t2` the second (line 101). If a cached token
exists with `expiry >= t1` its formatted value is returned with no
request; otherwise the refresh path runs. -/
def MetadataManager.token (m : MetadataManager) (t1 t2 : Int) (net : Net) :
    CallResult MetadataManager :=
  match m.current_token with
  | some tok =>
    if tok.expiry ≥ t1 then { result := .ok tok.value.toString, state := m, requests := [] }
    else m.refresh t2 net
  | none => m.refresh t2 net

/-- Embeds `struct TokenManager` (again without the transport handle). -/
structure TokenManager where
  scopes : String
  creds : ApplicationCredentials
  current_token : Option Token
deriving Repr, DecidableEq

/-- Embeds `TokenManager::new`. -/
def TokenManager.new (creds : ApplicationCredentials) (scopes : List String) : TokenManager :=
  { scopes := String.intercalate " " scopes
    creds := creds
    current_token := none }

/-- The JWT header built on every assertion-strategy cache miss. -/
def jwtHeader : Json :=
  .obj [("alg", .str "RS256"), ("typ", .str "JWT")]

/-- The JWT claim set: issuer, scope string, audience, `exp` = the locally
computed expiry, `iat` = the clock reading at the start of the call. -/
def TokenManager.jwtPayload (tm : TokenManager) (iat expiry : Int) : Json :=
  .obj [("iss", .str tm.creds.client_email),
        ("scope", .str tm.scopes),
        ("aud", .str AUTH_ENDPOINT),
        ("exp", .int expiry),
        ("iat", .int iat)]

/-- The form body of the assertion exchange. -/
def assertionForm (assertion : String) : String :=
  "grant_type=urn:ietf:params:oauth:grant-type:jwt-bearer&assertion=" ++ assertion

/-- The POST request of the assertion exchange. -/
def assertionRequest (assertion : String) : HttpRequest :=
  { method := "POST"
    uri := AUTH_ENDPOINT
    headers := [("Content-Type", "application/x-www-form-urlencoded")]
    body := assertionForm assertion }

/-- The cache-miss path of `TokenManager::token` (lines 143-184): compute
`expiry = t1 + 45 minutes`, sign the assertion, POST it, parse the body as
`AuthResponse`, and on success store a token carrying the *locally*
computed `expiry` (the server's `expires_in` is ignored). -/
def TokenManager.refresh (tm : TokenManager) (t1 : Int) (sign : Signer) (net : Net) :
    CallResult TokenManager :=
  let expiry := t1 + 45 * 60
  match sign jwtHeader tm.creds.private_key (tm.jwtPayload t1 expiry) with
  | .error e => { result := .error e, state := tm, requests := [] }
  | .ok assertion =>
    let req := assertionRequest assertion
    match net req with
    | .error e => { result := .error e, state := tm, requests := [req] }
    | .ok resp =>
      match resp.bodyJson.bind AuthResponse.fromJson with
      | none => { result := .error .malformedResponse, state := tm, requests := [req] }
      | some ar =>
        let value := TokenValue.bearer ar.access_token
        { result := .ok value.toString
          state := { tm with current_token := some { value := value, expiry := expiry } }
          requests := [req] }

/-- Embeds `TokenManager::token`: `t1` is the single clock reading
(`current_time`, line 140). The cache hit test is `token.expiry >=
current_time`, exactly as in the `match` guard at line 142. -/
def TokenManager.token (tm : TokenManager) (t1 : Int) (sign : Signer) (net : Net) :
    CallResult TokenManager :=
  match tm.current_token with
  | some tok =>
    if tok.expiry ≥ t1 then { result := .ok tok.value.toString, state := tm, requests := [] }
    else tm.refresh t1 sign net
  | none => tm.refresh t1 sign net

/-- The two concrete `TokenProvider` implementations, as chosen at client
construction (`Box<dyn TokenProvider + Send>` in `Client`). -/
inductive Strategy where
  | assertion : TokenManager → Strategy
  | metadata : MetadataManager → Strategy
deriving Repr, DecidableEq

/-- The cached token of whichever strategy is in use. -/
def Strategy.cache : Strategy → Option Token
  | .assertion tm => tm.current_token
  | .metadata m => m.current_token

/-- One `token()` call dispatched through the `TokenProvider` trait
object. The assertion strategy reads the clock once (`t1`); the metadata
strategy reads it twice (`t1` then `t2`); the signer is used only by the
assertion strategy. -/
def Strategy.token (s : Strategy) (t1 t2 : Int) (sign : Signer) (net : Net) :
    CallResult Strategy :=
  match s with
  | .assertion tm =>
    let r := tm.token t1 sign net
    { result := r.result, state := .assertion r.state, requests := r.requests }
  | .metadata m =>
    let r := m.token t1 t2 net
    { result := r.result, state := .metadata r.state, requests := r.requests }

/-- A sequence of `token()` calls on one provider, each call supplying its
two clock readings, signer and transport; returns the list of results and
the final provider state. -/
def Strategy.tokenSeq (s : Strategy) :
    List (Int × Int × Signer × Net) → List (Except AuthError String) × Strategy
  | [] => ([], s)
  | c :: rest =>
    let r := s.token c.1 c.2.1 c.2.2.1 c.2.2.2
    let tail := Strategy.tokenSeq r.state rest
    (r.result :: tail.1, tail.2)

/-- Modelled from the spec: the storage `Error` enum lives in
`src/storage/mod.rs`, which is not part of the provided sources. Only its
`Auth` variant appears at the construction site (`Error::Auth(...)` in
`client.rs`); `ioFailure` and `jsonFailure` stand for the conversions
applied by the `?` operator to `File::open` and `json::from_reader`
failures. -/
inductive Error where
  | auth : AuthError → Error
  | ioFailure : Error
  | jsonFailure : Error
deriving Repr, DecidableEq

/-- Embeds `struct Client` (the `reqwest` handle is omitted; the
`Arc<Mutex<...>>` wrapper is the shared-handle concurrency glue, out of
scope of the sequential embedding). -/
structure Client where
  project_name : String
  token_provider : Strategy
deriving Repr, DecidableEq

/-- Embeds `Client::SCOPES`. -/
def Client.SCOPES : List String :=
  ["https://www.googleapis.com/auth/cloud-platform",
   "https://www.googleapis.com/auth/devstorage.full_control"]

/-- Embeds `Client::from_credentials`: always succeeds, installing a
`TokenManager` over the given credentials. -/
def Client.from_credentials (project_name : String) (creds : ApplicationCredentials) :
    Except Error Client :=
  .ok { project_name := project_name
        token_provider := .assertion (TokenManager.new creds Client.SCOPES) }

/-- Embeds `Client::new`. The process environment is passed in as a
partial map `env`; reading and parsing the credentials file
(`File::open` + `json::from_reader`) is passed in as `readCreds`, whose
failures are the `?`-converted `ioFailure` / `jsonFailure` errors. -/
def Client.new (project_name : String) (env : String → Option String)
    (readCreds : String → Except Error ApplicationCredentials) : Except Error Client :=
  match env "GOOGLE_APPLICATION_CREDENTIALS" with
  | some path =>
    match readCreds path with
    | .error e => .error e
    | .ok creds => Client.from_credentials project_name creds
  | none =>
    match env "K_SERVICE" with
    | some _ =>
      .ok { project_name := project_name
            token_provider := .metadata (MetadataManager.new Client.SCOPES) }
    | none =>
      .error (.auth (.config
        "Missing both GOOGLE_APPLICATION_CREDENTIALS and metadata service."))

end GoogleCloudRs

namespace GoogleCloudRs

theorem MetadataManager.md_token_hit (m : MetadataManager) (tok : Token) (t1 t2 : Int) (net : Net)
    (hc : m.current_token = some tok) (ht : t1 ≤ tok.expiry) :
    m.token t1 t2 net = { result := .ok tok.value.toString, state := m, requests := [] } := by
  unfold MetadataManager.token
  rw [hc]
  simp [ht]

theorem MetadataManager.md_token_miss (m : MetadataManager) (tok : Token) (t1 t2 : Int) (net : Net)
    (hc : m.current_token = some tok) (ht : tok.expiry < t1) :
    m.token t1 t2 net = m.refresh t2 net := by
  unfold MetadataManager.token
  rw [hc]
  simp [not_le.mpr ht]

theorem MetadataManager.md_token_none (m : MetadataManager) (t1 t2 : Int) (net : Net)
    (hc : m.current_token = none) :
    m.token t1 t2 net = m.refresh t2 net := by
  unfold MetadataManager.token
  rw [hc]

theorem MetadataManager.md_refresh_ok (m : MetadataManager) (t2 : Int) (net : Net)
    (resp : HttpResponse) (ar : AuthResponse)
    (hnet : net metadataRequest = .ok resp)
    (har : resp.bodyJson.bind AuthResponse.fromJson = some ar) :
    m.refresh t2 net =
      { result := .ok ("Bearer " ++ ar.access_token),
        state := { m with
          current_token := some ({ value := .bearer ar.access_token, expiry := t2 + ar.expires_in }) },
        requests := [metadataRequest] } := by
  unfold MetadataManager.refresh
  rw [hnet]
  simp only []
  rw [har]
  rfl

theorem MetadataManager.md_refresh_err_net (m : MetadataManager) (t2 : Int) (net : Net)
    (e : AuthError) (hnet : net metadataRequest = .error e) :
    m.refresh t2 net = { result := .error e, state := m, requests := [metadataRequest] } := by
  unfold MetadataManager.refresh
  rw [hnet]

theorem MetadataManager.md_refresh_err_parse (m : MetadataManager) (t2 : Int) (net : Net)
    (resp : HttpResponse) (hnet : net metadataRequest = .ok resp)
    (har : resp.bodyJson.bind AuthResponse.fromJson = none) :
    m.refresh t2 net =
      { result := .error .malformedResponse, state := m, requests := [metadataRequest] } := by
  unfold MetadataManager.refresh
  rw [hnet]
  simp only []
  rw [har]

theorem TokenManager.tm_token_hit (tm : TokenManager) (tok : Token) (t1 : Int)
    (sign : Signer) (net : Net)
    (hc : tm.current_token = some tok) (ht : t1 ≤ tok.expiry) :
    tm.token t1 sign net = { result := .ok tok.value.toString, state := tm, requests := [] } := by
  unfold TokenManager.token
  rw [hc]
  simp [ht]

theorem TokenManager.tm_token_miss (tm : TokenManager) (tok : Token) (t1 : Int)
    (sign : Signer) (net : Net)
    (hc : tm.current_token = some tok) (ht : tok.expiry < t1) :
    tm.token t1 sign net = tm.refresh t1 sign net := by
  unfold TokenManager.token
  rw [hc]
  simp [not_le.mpr ht]

theorem TokenManager.tm_token_none (tm : TokenManager) (t1 : Int) (sign : Signer) (net : Net)
    (hc : tm.current_token = none) :
    tm.token t1 sign net = tm.refresh t1 sign net := by
  unfold TokenManager.token
  rw [hc]

theorem TokenManager.tm_refresh_err_sign (tm : TokenManager) (t1 : Int) (sign : Signer) (net : Net)
    (e : AuthError)
    (hsg : sign jwtHeader tm.creds.private_key (tm.jwtPayload t1 (t1 + 45 * 60)) = .error e) :
    tm.refresh t1 sign net = { result := .error e, state := tm, requests := [] } := by
  simp only [TokenManager.refresh]
  rw [hsg]

theorem TokenManager.tm_refresh_err_net (tm : TokenManager) (t1 : Int) (sign : Signer) (net : Net)
    (assertion : String) (e : AuthError)
    (hsg : sign jwtHeader tm.creds.private_key (tm.jwtPayload t1 (t1 + 45 * 60)) = .ok assertion)
    (hnet : net (assertionRequest assertion) = .error e) :
    tm.refresh t1 sign net =
      { result := .error e, state := tm, requests := [assertionRequest assertion] } := by
  simp only [TokenManager.refresh]
  rw [hsg]
  simp only []
  rw [hnet]

theorem TokenManager.tm_refresh_err_parse (tm : TokenManager) (t1 : Int) (sign : Signer) (net : Net)
    (assertion : String) (resp : HttpResponse)
    (hsg : sign jwtHeader tm.creds.private_key (tm.jwtPayload t1 (t1 + 45 * 60)) = .ok assertion)
    (hnet : net (assertionRequest assertion) = .ok resp)
    (har : resp.bodyJson.bind AuthResponse.fromJson = none) :
    tm.refresh t1 sign net =
      { result := .error .malformedResponse, state := tm,
        requests := [assertionRequest assertion] } := by
  simp only [TokenManager.refresh]
  rw [hsg]
  simp only []
  rw [hnet]
  simp only []
  rw [har]

theorem TokenManager.tm_refresh_ok (tm : TokenManager) (t1 : Int) (sign : Signer) (net : Net)
    (assertion : String) (resp : HttpResponse) (ar : AuthResponse)
    (hsg : sign jwtHeader tm.creds.private_key (tm.jwtPayload t1 (t1 + 45 * 60)) = .ok assertion)
    (hnet : net (assertionRequest assertion) = .ok resp)
    (har : resp.bodyJson.bind AuthResponse.fromJson = some ar) :
    tm.refresh t1 sign net =
      { result := .ok ("Bearer " ++ ar.access_token),
        state := { tm with
          current_token := some ({ value := .bearer ar.access_token, expiry := t1 + 45 * 60 }) },
        requests := [assertionRequest assertion] } := by
  simp only [TokenManager.refresh]
  rw [hsg]
  simp only []
  rw [hnet]
  simp only []
  rw [har]
  rfl

theorem Strategy.st_token_hit (s : Strategy) (tok : Token) (t1 t2 : Int)
    (sg : Signer) (nt : Net)
    (hc : s.cache = some tok) (ht : t1 ≤ tok.expiry) :
    s.token t1 t2 sg nt = { result := .ok tok.value.toString, state := s, requests := [] } := by
  cases s with
  | assertion tm =>
    simp only [Strategy.cache] at hc
    simp only [Strategy.token]
    rw [TokenManager.tm_token_hit tm tok t1 sg nt hc ht]
  | metadata m =>
    simp only [Strategy.cache] at hc
    simp only [Strategy.token]
    rw [MetadataManager.md_token_hit m tok t1 t2 nt hc ht]

/-- The cache-validity test shared by both strategies: a cached token is a
hit exactly when `token.expiry >= current_time`. -/
def cacheValid (c : Option Token) (t : Int) : Bool :=
  match c with
  | some tok => decide (tok.expiry ≥ t)
  | none => false

/-- C1: for every strategy holding a cached token whose expiry is at or after
the current clock reading, `token()` returns the cached token's formatted
value, issues no HTTP request, and leaves the provider (hence the cached
token) unchanged; consequently a sequence of `token()` calls whose clock
readings all stay at or before the expiry returns the identical string on
every call and leaves the provider state unchanged. -/
theorem token_cached_before_expiry_no_io (s : Strategy) (tok : Token)
    (hc : s.cache = some tok) (calls : List (Int × Int × Signer × Net))
    (hcalls : ∀ c ∈ calls, c.1 ≤ tok.expiry) :
    (∀ t1 t2 sg nt, t1 ≤ tok.expiry →
        s.token t1 t2 sg nt =
          { result := .ok tok.value.toString, state := s, requests := [] })
    ∧ Strategy.tokenSeq s calls = (calls.map fun _ => .ok tok.value.toString, s) := by
  refine ⟨fun t1 t2 sg nt ht => Strategy.st_token_hit s tok t1 t2 sg nt hc ht, ?_⟩
  induction calls with
  | nil => rfl
  | cons c rest ih =>
    have hc1 : c.1 ≤ tok.expiry := hcalls c (List.mem_cons_self c rest)
    have ih2 := ih (fun d hd => hcalls d (List.mem_cons_of_mem c hd))
    unfold Strategy.tokenSeq
    rw [Strategy.st_token_hit s tok c.1 c.2.1 c.2.2.1 c.2.2.2 hc hc1]
    show (Except.ok tok.value.toString :: (Strategy.tokenSeq s rest).1,
          (Strategy.tokenSeq s rest).2) =
      (List.map (fun x => Except.ok tok.value.toString) (c :: rest), s)
    rw [ih2]
    rfl

/-- A transport that answers every request with status 200 and a body
carrying the given `access_token` and `expires_in`. -/
def sampleNet (tok : String) (e : Int) : Net := fun _ =>
  .ok { status := 200
        bodyJson := some (.obj [("access_token", .str tok), ("expires_in", .int e)]) }

/-- A transport that fails every request. -/
def failNet : Net := fun _ => .error .transport

/-- A signer that signs every assertion successfully. -/
def sampleSigner : Signer := fun _ _ _ => .ok "signed-assertion"

/-- Concrete credentials for witnesses. -/
def sampleCreds : ApplicationCredentials :=
  { cred_type := "service_account"
    project_id := "proj"
    private_key_id := "kid"
    private_key := "PEM"
    client_email := "svc@proj.iam.gserviceaccount.com"
    client_id := "cid"
    auth_uri := "https://accounts.google.com/o/oauth2/auth"
    token_uri := "https://oauth2.googleapis.com/token"
    auth_provider_x509_cert_url := "https://www.googleapis.com/oauth2/v1/certs"
    client_x509_cert_url := "https://www.googleapis.com/robot/v1/metadata/x509/svc" }

/-- A metadata-strategy provider already holding a token expiring at 100. -/
def c1State : Strategy :=
  .metadata { scopes := "s", current_token := some ({ value := .bearer "tok0", expiry := 100 }) }

/-- Two calls whose first clock readings (10 and 99) stay at or before 100. -/
def c1Calls : List (Int × Int × Signer × Net) :=
  [(10, 10, sampleSigner, failNet), (99, 100, sampleSigner, failNet)]

theorem token_cached_before_expiry_no_io_witness :
    Strategy.tokenSeq c1State c1Calls =
      ([.ok "Bearer tok0", .ok "Bearer tok0"], c1State) :=
  (token_cached_before_expiry_no_io c1State { value := .bearer "tok0", expiry := 100 } rfl
    c1Calls (by decide)).2

/-- C2: on every cache-miss refresh of the assertion-exchange strategy that
returns successfully, the stored token's expiry is the clock reading taken at
the start of the call plus exactly 45 minutes, whatever `expires_in` the
transport reported (the transport `nt` is universally quantified, so the
server value cannot influence the stored expiry). -/
theorem assertion_refresh_expiry_45_minutes (tm : TokenManager) (t1 : Int)
    (sg : Signer) (nt : Net)
    (hmiss : cacheValid tm.current_token t1 = false)
    (str : String) (hok : (tm.token t1 sg nt).result = .ok str) :
    ∃ tok, (tm.token t1 sg nt).state.current_token = some tok
      ∧ tok.expiry = t1 + 45 * 60 := by
  have hpath : tm.token t1 sg nt = tm.refresh t1 sg nt := by
    cases hcc : tm.current_token with
    | none => exact TokenManager.tm_token_none tm t1 sg nt hcc
    | some tok =>
      have hlt : tok.expiry < t1 := by
        have := hmiss
        rw [hcc] at this
        simpa [cacheValid] using this
      exact TokenManager.tm_token_miss tm tok t1 sg nt hcc hlt
  rw [hpath] at hok ⊢
  cases hsg : sg jwtHeader tm.creds.private_key (tm.jwtPayload t1 (t1 + 45 * 60)) with
  | error e =>
    rw [TokenManager.tm_refresh_err_sign tm t1 sg nt e hsg] at hok
    exact absurd hok (by simp)
  | ok assertion =>
    cases hnt : nt (assertionRequest assertion) with
    | error e =>
      rw [TokenManager.tm_refresh_err_net tm t1 sg nt assertion e hsg hnt] at hok
      exact absurd hok (by simp)
    | ok resp =>
      cases har : resp.bodyJson.bind AuthResponse.fromJson with
      | none =>
        rw [TokenManager.tm_refresh_err_parse tm t1 sg nt assertion resp hsg hnt har] at hok
        exact absurd hok (by simp)
      | some ar =>
        rw [TokenManager.tm_refresh_ok tm t1 sg nt assertion resp ar hsg hnt har]
        exact ⟨_, rfl, rfl⟩

/-- A fresh assertion-exchange manager for witnesses. -/
def c2TM : TokenManager := TokenManager.new sampleCreds ["scope-a"]

theorem assertion_refresh_expiry_45_minutes_witness :
    ∃ tok, (c2TM.token 0 sampleSigner (sampleNet "x" 3600)).state.current_token = some tok
      ∧ tok.expiry = 0 + 45 * 60 :=
  assertion_refresh_expiry_45_minutes c2TM 0 sampleSigner (sampleNet "x" 3600) rfl
    "Bearer x" rfl

theorem MetadataManager.md_token_of_miss (m : MetadataManager) (t1 t2 : Int) (nt : Net)
    (hmiss : cacheValid m.current_token t1 = false) :
    m.token t1 t2 nt = m.refresh t2 nt := by
  cases hcc : m.current_token with
  | none => exact MetadataManager.md_token_none m t1 t2 nt hcc
  | some tok =>
    have hlt : tok.expiry < t1 := by
      have h := hmiss
      rw [hcc] at h
      simpa [cacheValid] using h
    exact MetadataManager.md_token_miss m tok t1 t2 nt hcc hlt

theorem TokenManager.tm_token_of_miss (tm : TokenManager) (t1 : Int) (sg : Signer) (nt : Net)
    (hmiss : cacheValid tm.current_token t1 = false) :
    tm.token t1 sg nt = tm.refresh t1 sg nt := by
  cases hcc : tm.current_token with
  | none => exact TokenManager.tm_token_none tm t1 sg nt hcc
  | some tok =>
    have hlt : tok.expiry < t1 := by
      have h := hmiss
      rw [hcc] at h
      simpa [cacheValid] using h
    exact TokenManager.tm_token_miss tm tok t1 sg nt hcc hlt

/-- A fresh metadata-strategy manager for counterexamples and witnesses. -/
def c3M : MetadataManager := { scopes := "s", current_token := none }

/-- C3 counterexample: run a metadata refresh whose first clock reading is 0
and whose second (post-exchange) reading is 10, with the server reporting
`expires_in = 5`. The stored expiry is 15 = 10 + 5, not 5 = 0 + 5, so the
expiry is not the time read at the start of the call plus `expires_in`. -/
theorem metadata_expiry_uses_start_time_counterexample :
    (c3M.token 0 10 (sampleNet "a" 5)).state.current_token.map Token.expiry = some 15
    ∧ ¬ ((c3M.token 0 10 (sampleNet "a" 5)).state.current_token.map Token.expiry
          = some (0 + 5)) := by
  decide

/-- C3 amended: the expiry stored by a successful metadata-strategy refresh
equals the SECOND clock reading `t2` (the `chrono::Utc::now()` evaluated at
line 101, after the exchange completes) plus the server-reported
`expires_in` — not, in general, the reading taken at the start of the call. -/
theorem metadata_refresh_expiry_second_reading (m : MetadataManager) (t1 t2 : Int)
    (nt : Net) (resp : HttpResponse) (ar : AuthResponse)
    (hmiss : cacheValid m.current_token t1 = false)
    (hnet : nt metadataRequest = .ok resp)
    (har : resp.bodyJson.bind AuthResponse.fromJson = some ar) :
    (m.token t1 t2 nt).state.current_token =
      some ({ value := .bearer ar.access_token, expiry := t2 + ar.expires_in }) := by
  rw [MetadataManager.md_token_of_miss m t1 t2 nt hmiss,
    MetadataManager.md_refresh_ok m t2 nt resp ar hnet har]

theorem metadata_refresh_expiry_second_reading_witness :
    (c3M.token 0 10 (sampleNet "a" 5)).state.current_token =
      some ({ value := .bearer "a", expiry := 10 + 5 }) :=
  metadata_refresh_expiry_second_reading c3M 0 10 (sampleNet "a" 5)
    { status := 200
      bodyJson := some (.obj [("access_token", .str "a"), ("expires_in", .int 5)]) }
    { access_token := "a", expires_in := 5 } rfl rfl rfl

theorem MetadataManager.md_refresh_state_of_error (m : MetadataManager) (t2 : Int) (nt : Net)
    (e : AuthError) (h : (m.refresh t2 nt).result = .error e) :
    (m.refresh t2 nt).state = m := by
  cases hnt : nt metadataRequest with
  | error e2 => rw [MetadataManager.md_refresh_err_net m t2 nt e2 hnt]
  | ok resp =>
    cases har : resp.bodyJson.bind AuthResponse.fromJson with
    | none => rw [MetadataManager.md_refresh_err_parse m t2 nt resp hnt har]
    | some ar =>
      rw [MetadataManager.md_refresh_ok m t2 nt resp ar hnt har] at h
      exact absurd h (by simp)

theorem TokenManager.tm_refresh_state_of_error (tm : TokenManager) (t1 : Int)
    (sg : Signer) (nt : Net)
    (e : AuthError) (h : (tm.refresh t1 sg nt).result = .error e) :
    (tm.refresh t1 sg nt).state = tm := by
  cases hsg : sg jwtHeader tm.creds.private_key (tm.jwtPayload t1 (t1 + 45 * 60)) with
  | error e2 => rw [TokenManager.tm_refresh_err_sign tm t1 sg nt e2 hsg]
  | ok assertion =>
    cases hnt : nt (assertionRequest assertion) with
    | error e2 => rw [TokenManager.tm_refresh_err_net tm t1 sg nt assertion e2 hsg hnt]
    | ok resp =>
      cases har : resp.bodyJson.bind AuthResponse.fromJson with
      | none => rw [TokenManager.tm_refresh_err_parse tm t1 sg nt assertion resp hsg hnt har]
      | some ar =>
        rw [TokenManager.tm_refresh_ok tm t1 sg nt assertion resp ar hsg hnt har] at h
        exact absurd h (by simp)

theorem MetadataManager.md_token_state_of_error (m : MetadataManager) (t1 t2 : Int) (nt : Net)
    (e : AuthError) (h : (m.token t1 t2 nt).result = .error e) :
    (m.token t1 t2 nt).state = m := by
  cases hcc : m.current_token with
  | some tok =>
    by_cases hge : t1 ≤ tok.expiry
    · rw [MetadataManager.md_token_hit m tok t1 t2 nt hcc hge]
    · push_neg at hge
      rw [MetadataManager.md_token_miss m tok t1 t2 nt hcc hge] at h ⊢
      exact MetadataManager.md_refresh_state_of_error m t2 nt e h
  | none =>
    rw [MetadataManager.md_token_none m t1 t2 nt hcc] at h ⊢
    exact MetadataManager.md_refresh_state_of_error m t2 nt e h

theorem TokenManager.tm_token_state_of_error (tm : TokenManager) (t1 : Int)
    (sg : Signer) (nt : Net)
    (e : AuthError) (h : (tm.token t1 sg nt).result = .error e) :
    (tm.token t1 sg nt).state = tm := by
  cases hcc : tm.current_token with
  | some tok =>
    by_cases hge : t1 ≤ tok.expiry
    · rw [TokenManager.tm_token_hit tm tok t1 sg nt hcc hge]
    · push_neg at hge
      rw [TokenManager.tm_token_miss tm tok t1 sg nt hcc hge] at h ⊢
      exact TokenManager.tm_refresh_state_of_error tm t1 sg nt e h
  | none =>
    rw [TokenManager.tm_token_none tm t1 sg nt hcc] at h ⊢
    exact TokenManager.tm_refresh_state_of_error tm t1 sg nt e h

/-- C4: for either strategy, any `token()` call that fails — whether from a
signing failure, a transport failure, or a body that does not decode as the
expected JSON shape — returns the `AuthError` and leaves the provider state
(in particular the cached-token field) exactly as it was before the call. -/
theorem token_failure_leaves_cache_unchanged (s : Strategy) (t1 t2 : Int)
    (sg : Signer) (nt : Net) (e : AuthError)
    (h : (s.token t1 t2 sg nt).result = .error e) :
    (s.token t1 t2 sg nt).state = s := by
  cases s with
  | assertion tm =>
    simp only [Strategy.token] at h ⊢
    rw [TokenManager.tm_token_state_of_error tm t1 sg nt e h]
  | metadata m =>
    simp only [Strategy.token] at h ⊢
    rw [MetadataManager.md_token_state_of_error m t1 t2 nt e h]

theorem token_failure_leaves_cache_unchanged_witness :
    (Strategy.token (.metadata c3M) 0 0 sampleSigner failNet).state = .metadata c3M :=
  token_failure_leaves_cache_unchanged (.metadata c3M) 0 0 sampleSigner failNet
    .transport rfl

/-- A transport answering every request with status 500 and a well-formed
token body. -/
def c5Net : Net := fun _ =>
  .ok { status := 500
        bodyJson := some (.obj [("access_token", .str "x"), ("expires_in", .int 10)]) }

/-- C5 counterexample: a metadata-strategy cache-miss exchange whose HTTP
response carries status 500 — a non-2xx code — does NOT fail: the code never
reads the status, so the call returns `Ok("Bearer x")` and no `AuthError` is
produced. -/
theorem non_2xx_response_fails_counterexample :
    c5Net metadataRequest =
      .ok { status := 500
            bodyJson := some (.obj [("access_token", .str "x"), ("expires_in", .int 10)]) }
    ∧ (MetadataManager.token c3M 0 0 c5Net).result = .ok "Bearer x"
    ∧ ∀ e, (MetadataManager.token c3M 0 0 c5Net).result ≠ .error e := by
  refine ⟨rfl, rfl, fun e h => ?_⟩
  rw [show (MetadataManager.token c3M 0 0 c5Net).result = .ok "Bearer x" from rfl] at h
  exact Except.noConfusion h

/-- C5 amended: neither strategy ever inspects the response status code. On a
cache miss where the transport returns a response, the entire call outcome is
invariant under replacing the status by any other value, and the exchange
fails precisely when the response body does not decode as the expected JSON
shape — so a non-2xx response with a well-formed body is treated as a
successful exchange. -/
theorem response_status_never_inspected (m : MetadataManager) (tm : TokenManager)
    (t1 t2 : Int) (sg : Signer) (resp : HttpResponse) (s2 : Nat)
    (hm : cacheValid m.current_token t1 = false)
    (htm : cacheValid tm.current_token t1 = false) :
    (m.token t1 t2 (fun _ => .ok resp) =
        m.token t1 t2 (fun _ => .ok ({ resp with status := s2 })))
    ∧ ((m.token t1 t2 (fun _ => .ok resp)).result.isOk
        = (resp.bodyJson.bind AuthResponse.fromJson).isSome)
    ∧ (∀ a, sg jwtHeader tm.creds.private_key (tm.jwtPayload t1 (t1 + 45 * 60)) = .ok a →
        tm.token t1 sg (fun _ => .ok resp) =
            tm.token t1 sg (fun _ => .ok ({ resp with status := s2 }))
        ∧ ((tm.token t1 sg (fun _ => .ok resp)).result.isOk
            = (resp.bodyJson.bind AuthResponse.fromJson).isSome)) := by
  have hmp := MetadataManager.md_token_of_miss m t1 t2 (fun _ => .ok resp) hm
  have hmp2 := MetadataManager.md_token_of_miss m t1 t2
    (fun _ => .ok ({ resp with status := s2 })) hm
  refine ⟨?_, ?_, ?_⟩
  · rw [hmp, hmp2]
    cases har : resp.bodyJson.bind AuthResponse.fromJson with
    | some ar =>
      rw [MetadataManager.md_refresh_ok m t2 (fun _ => .ok resp) resp ar rfl har,
        MetadataManager.md_refresh_ok m t2 (fun _ => .ok ({ resp with status := s2 }))
          ({ resp with status := s2 }) ar rfl har]
    | none =>
      rw [MetadataManager.md_refresh_err_parse m t2 (fun _ => .ok resp) resp rfl har,
        MetadataManager.md_refresh_err_parse m t2 (fun _ => .ok ({ resp with status := s2 }))
          ({ resp with status := s2 }) rfl har]
  · rw [hmp]
    cases har : resp.bodyJson.bind AuthResponse.fromJson with
    | some ar =>
      rw [MetadataManager.md_refresh_ok m t2 (fun _ => .ok resp) resp ar rfl har]
      rfl
    | none =>
      rw [MetadataManager.md_refresh_err_parse m t2 (fun _ => .ok resp) resp rfl har]
      rfl
  · intro a hsg
    have htp := TokenManager.tm_token_of_miss tm t1 sg (fun _ => .ok resp) htm
    have htp2 := TokenManager.tm_token_of_miss tm t1 sg
      (fun _ => .ok ({ resp with status := s2 })) htm
    refine ⟨?_, ?_⟩
    · rw [htp, htp2]
      cases har : resp.bodyJson.bind AuthResponse.fromJson with
      | some ar =>
        rw [TokenManager.tm_refresh_ok tm t1 sg (fun _ => .ok resp) a resp ar hsg rfl har,
          TokenManager.tm_refresh_ok tm t1 sg (fun _ => .ok ({ resp with status := s2 }))
            a ({ resp with status := s2 }) ar hsg rfl har]
      | none =>
        rw [TokenManager.tm_refresh_err_parse tm t1 sg (fun _ => .ok resp) a resp hsg rfl har,
          TokenManager.tm_refresh_err_parse tm t1 sg
            (fun _ => .ok ({ resp with status := s2 })) a ({ resp with status := s2 })
            hsg rfl har]
    · rw [htp]
      cases har : resp.bodyJson.bind AuthResponse.fromJson with
      | some ar =>
        rw [TokenManager.tm_refresh_ok tm t1 sg (fun _ => .ok resp) a resp ar hsg rfl har]
        rfl
      | none =>
        rw [TokenManager.tm_refresh_err_parse tm t1 sg (fun _ => .ok resp) a resp hsg rfl har]
        rfl

theorem response_status_never_inspected_witness :
    (MetadataManager.token c3M 0 0 (fun _ =>
        .ok ({ status := 500
               bodyJson := some (.obj [("access_token", .str "x"), ("expires_in", .int 10)]) }))).result.isOk
      = (Option.bind
          (some (.obj [("access_token", .str "x"), ("expires_in", .int 10)]))
          AuthResponse.fromJson).isSome :=
  (response_status_never_inspected c3M c2TM 0 0 sampleSigner
    { status := 500
      bodyJson := some (.obj [("access_token", .str "x"), ("expires_in", .int 10)]) }
    200 rfl rfl).2.1

/-- Whether `needle` occurs as a contiguous substring of `haystack`. -/
def containsSub (needle haystack : String) : Bool :=
  let n := needle.toList
  let h := haystack.toList
  (List.range (h.length + 1)).any fun i => (h.drop i).take n.length == n

/-- Whether the string `s` occurs anywhere in the request: in its method,
URI, body, or any header name or value. -/
def HttpRequest.mentions (r : HttpRequest) (s : String) : Bool :=
  containsSub s r.method || containsSub s r.uri || containsSub s r.body
    || r.headers.any fun kv => containsSub s kv.1 || containsSub s kv.2

/-- A metadata manager configured with scope string "scope-a". -/
def c6M : MetadataManager := MetadataManager.new ["scope-a"]

/-- C6 counterexample: a cache-miss refresh of a metadata manager whose
configured scope string is "scope-a" issues exactly the fixed metadata
request, and that request does not carry the scope string anywhere — not in
the method, URI, headers, or body. The `scopes` field is stored by
`MetadataManager::new` but never used when the request is built. -/
theorem metadata_request_carries_scope_counterexample :
    c6M.scopes = "scope-a"
    ∧ (c6M.token 0 0 failNet).requests = [metadataRequest]
    ∧ metadataRequest.mentions "scope-a" = false := by
  refine ⟨rfl, rfl, by decide⟩

/-- C6 amended: every cache-miss refresh of the metadata strategy issues
exactly one HTTP request — the fixed GET to
`http://metadata.google.internal/computeMetadata/v1/instance/service-accounts/default/token`
with header `Metadata-Flavor: Google` and an empty body. The configured
scope string is not part of the request: the built request is one fixed
value, identical for every manager configuration and every transport. -/
theorem MetadataManager.md_refresh_requests (m : MetadataManager) (t2 : Int) (nt : Net) :
    (m.refresh t2 nt).requests = [metadataRequest] := by
  cases hnt : nt metadataRequest with
  | error e => rw [MetadataManager.md_refresh_err_net m t2 nt e hnt]
  | ok resp =>
    cases har : resp.bodyJson.bind AuthResponse.fromJson with
    | none => rw [MetadataManager.md_refresh_err_parse m t2 nt resp hnt har]
    | some ar => rw [MetadataManager.md_refresh_ok m t2 nt resp ar hnt har]

theorem metadata_refresh_single_fixed_request (m : MetadataManager) (t1 t2 : Int) (nt : Net)
    (hmiss : cacheValid m.current_token t1 = false) :
    (m.token t1 t2 nt).requests = [metadataRequest]
    ∧ metadataRequest =
      { method := "GET", uri := META_ENDPOINT,
        headers := [("Metadata-Flavor", "Google")], body := "" } := by
  refine ⟨?_, rfl⟩
  rw [MetadataManager.md_token_of_miss m t1 t2 nt hmiss]
  exact MetadataManager.md_refresh_requests m t2 nt

theorem metadata_refresh_single_fixed_request_witness :
    (c6M.token 0 0 failNet).requests = [metadataRequest] :=
  (metadata_refresh_single_fixed_request c6M 0 0 failNet rfl).1

/-- C7: client construction selects exactly one strategy with the documented
precedence. If the credentials environment variable is set and the file
loads and parses, the client is built over the assertion-exchange strategy
from the parsed record; otherwise, if the managed-compute marker variable is
set, it is built over the instance-metadata strategy; with neither set,
construction returns the configuration `AuthError` and no client value is
produced. -/
theorem client_construction_strategy_precedence (pn : String)
    (env : String → Option String)
    (readCreds : String → Except Error ApplicationCredentials) :
    (∀ path creds, env "GOOGLE_APPLICATION_CREDENTIALS" = some path →
        readCreds path = .ok creds →
        Client.new pn env readCreds =
          .ok { project_name := pn
                token_provider := .assertion (TokenManager.new creds Client.SCOPES) })
    ∧ (env "GOOGLE_APPLICATION_CREDENTIALS" = none →
        ∀ v, env "K_SERVICE" = some v →
        Client.new pn env readCreds =
          .ok { project_name := pn
                token_provider := .metadata (MetadataManager.new Client.SCOPES) })
    ∧ (env "GOOGLE_APPLICATION_CREDENTIALS" = none → env "K_SERVICE" = none →
        Client.new pn env readCreds =
          .error (.auth (.config
            "Missing both GOOGLE_APPLICATION_CREDENTIALS and metadata service."))) := by
  refine ⟨fun path creds hp hr => ?_, fun hn v hk => ?_, fun hn hk => ?_⟩
  · unfold Client.new
    rw [hp]
    simp only []
    rw [hr]
    rfl
  · unfold Client.new
    rw [hn]
    simp only []
    rw [hk]
  · unfold Client.new
    rw [hn]
    simp only []
    rw [hk]

/-- An empty process environment. -/
def c7EnvNone : String → Option String := fun _ => none

theorem client_construction_strategy_precedence_witness :
    Client.new "proj" c7EnvNone (fun _ => .ok sampleCreds) =
      .error (.auth (.config
        "Missing both GOOGLE_APPLICATION_CREDENTIALS and metadata service.")) :=
  (client_construction_strategy_precedence "proj" c7EnvNone
    (fun _ => .ok sampleCreds)).2.2 rfl rfl

/-- A metadata manager holding a token that expires at 100. -/
def c8M : MetadataManager :=
  { scopes := "s", current_token := some ({ value := .bearer "old", expiry := 100 }) }

/-- C8 counterexample: at clock reading 101, strictly past the cached expiry
100, a successful metadata refresh whose server reports `expires_in = -50`
stores and returns a token with expiry 51 = 101 + (-50), which is NOT
strictly later than the previous expiry 100 — so the expiry of returned
tokens is not monotonically non-decreasing either. -/
theorem refresh_expiry_strictly_later_counterexample :
    c8M.current_token.map Token.expiry = some 100
    ∧ (c8M.token 101 101 (sampleNet "new" (-50))).result = .ok "Bearer new"
    ∧ (c8M.token 101 101 (sampleNet "new" (-50))).state.current_token.map Token.expiry
        = some 51
    ∧ ¬ ((100 : Int) < 51) := by
  refine ⟨rfl, rfl, rfl, by decide⟩

/-- C8 amended: after the clock passes the cached token's expiry, the next
successful `token()` call performs exactly one network exchange and stores a
token with a strictly later expiry — unconditionally for the
assertion-exchange strategy, and for the instance-metadata strategy provided
the second clock reading is not earlier than the first and the
server-reported `expires_in` is nonnegative (a negative `expires_in` can
make the new expiry earlier than the old one). -/
theorem refresh_expiry_strictly_later_amended :
    (∀ (tm : TokenManager) (tok : Token) (t1 : Int) (sg : Signer) (nt : Net) (str : String),
      tm.current_token = some tok → tok.expiry < t1 →
      (tm.token t1 sg nt).result = .ok str →
      (∃ tok2, (tm.token t1 sg nt).state.current_token = some tok2
         ∧ tok.expiry < tok2.expiry)
      ∧ (tm.token t1 sg nt).requests.length = 1)
    ∧ (∀ (m : MetadataManager) (tok : Token) (t1 t2 : Int) (nt : Net)
        (resp : HttpResponse) (ar : AuthResponse),
      m.current_token = some tok → tok.expiry < t1 → t1 ≤ t2 →
      nt metadataRequest = .ok resp →
      resp.bodyJson.bind AuthResponse.fromJson = some ar →
      0 ≤ ar.expires_in →
      (∃ tok2, (m.token t1 t2 nt).state.current_token = some tok2
         ∧ tok.expiry < tok2.expiry)
      ∧ (m.token t1 t2 nt).requests.length = 1) := by
  constructor
  · intro tm tok t1 sg nt str hc hlt hok
    have hpath := TokenManager.tm_token_miss tm tok t1 sg nt hc hlt
    rw [hpath] at hok ⊢
    cases hsg : sg jwtHeader tm.creds.private_key (tm.jwtPayload t1 (t1 + 45 * 60)) with
    | error e =>
      rw [TokenManager.tm_refresh_err_sign tm t1 sg nt e hsg] at hok
      exact absurd hok (by simp)
    | ok assertion =>
      cases hnt : nt (assertionRequest assertion) with
      | error e =>
        rw [TokenManager.tm_refresh_err_net tm t1 sg nt assertion e hsg hnt] at hok
        exact absurd hok (by simp)
      | ok resp =>
        cases har : resp.bodyJson.bind AuthResponse.fromJson with
        | none =>
          rw [TokenManager.tm_refresh_err_parse tm t1 sg nt assertion resp hsg hnt har] at hok
          exact absurd hok (by simp)
        | some ar =>
          rw [TokenManager.tm_refresh_ok tm t1 sg nt assertion resp ar hsg hnt har]
          exact ⟨⟨_, rfl, by simp only []; omega⟩, rfl⟩
  · intro m tok t1 t2 nt resp ar hc hlt h12 hnet har hnn
    have hpath := MetadataManager.md_token_miss m tok t1 t2 nt hc hlt
    rw [hpath, MetadataManager.md_refresh_ok m t2 nt resp ar hnet har]
    exact ⟨⟨_, rfl, by simp only []; omega⟩, rfl⟩

/-- An assertion-exchange manager holding a token that expires at 100. -/
def c8TM : TokenManager :=
  { scopes := "s"
    creds := sampleCreds
    current_token := some ({ value := .bearer "old", expiry := 100 }) }

theorem refresh_expiry_strictly_later_amended_witness :
    (∃ tok2, (c8TM.token 101 sampleSigner (sampleNet "new" 3600)).state.current_token
        = some tok2 ∧ (100 : Int) < tok2.expiry)
    ∧ (c8TM.token 101 sampleSigner (sampleNet "new" 3600)).requests.length = 1 :=
  refresh_expiry_strictly_later_amended.1 c8TM { value := .bearer "old", expiry := 100 }
    101 sampleSigner (sampleNet "new" 3600) "Bearer new" rfl (by decide) rfl

/-- C10: a metadata response that parses with an `access_token` and an
`expires_in` of zero or any negative value still succeeds: the call returns
the "Bearer "-prefixed access token and caches a token whose expiry (the
post-exchange clock reading plus `expires_in`) is at or before that reading,
so any immediately following call whose clock reading is strictly later
misses the cache and issues the metadata request again. -/
theorem metadata_nonpositive_expires_in_success (m : MetadataManager) (t1 t2 : Int)
    (nt : Net) (resp : HttpResponse) (ar : AuthResponse)
    (hmiss : cacheValid m.current_token t1 = false)
    (hnet : nt metadataRequest = .ok resp)
    (har : resp.bodyJson.bind AuthResponse.fromJson = some ar)
    (hnp : ar.expires_in ≤ 0) :
    (m.token t1 t2 nt).result = .ok ("Bearer " ++ ar.access_token)
    ∧ (∃ tok2, (m.token t1 t2 nt).state.current_token = some tok2 ∧ tok2.expiry ≤ t2)
    ∧ (∀ t3 t4 (nt2 : Net), t2 < t3 →
        ((m.token t1 t2 nt).state.token t3 t4 nt2).requests = [metadataRequest]) := by
  have hpath := MetadataManager.md_token_of_miss m t1 t2 nt hmiss
  rw [hpath, MetadataManager.md_refresh_ok m t2 nt resp ar hnet har]
  refine ⟨rfl, ⟨_, rfl, by simp only []; omega⟩, fun t3 t4 nt2 h23 => ?_⟩
  have hmiss2 : cacheValid
      (({ m with current_token := some ({ value := .bearer ar.access_token, expiry := t2 + ar.expires_in }) : MetadataManager }).current_token) t3 = false := by
    simp only [cacheValid]
    simp only [decide_eq_false_iff_not, not_le]
    omega
  rw [MetadataManager.md_token_of_miss _ t3 t4 nt2 hmiss2]
  exact MetadataManager.md_refresh_requests _ t4 nt2

theorem metadata_nonpositive_expires_in_success_witness :
    (c3M.token 0 3 (sampleNet "tok" 0)).result = .ok ("Bearer " ++ "tok") :=
  (metadata_nonpositive_expires_in_success c3M 0 3 (sampleNet "tok" 0)
    { status := 200
      bodyJson := some (.obj [("access_token", .str "tok"), ("expires_in", .int 0)]) }
    { access_token := "tok", expires_in := 0 } rfl rfl rfl (by decide)).1

end GoogleCloudRs
